import Mathlib

/-!
Verification development for the screen.vision capture / change-detection
pipeline and task-orchestration state machine.

The definitions below are a shallow embedding of the TypeScript sources:

* `src/hooks/screenshare.tsx` — frame scaler (`getScaledDimensions`),
  masking engine (`detectAndMaskPopup`, `maskPipWindow`), frame differ
  (`calculateImageDifference`), and the change-detection loop
  (`startChangeDetection` / `stopChangeDetection` /
  `pauseChangeDetectionTemporarily` and the timer callbacks).
* `src/app/providers/AnalyticsProvider.tsx` (TaskProvider) — the task
  orchestrator (`triggerGenerateTaskDescription`, `onNextTask`,
  `onRefreshTask`, `triggerFirstTask`, `sendFollowUpMessage`).

Modelling conventions:

* JavaScript strings are Lean `String`s; `trim`, `toLowerCase` and
  `startsWith` are given structural models (`jsTrim`, `jsToLower`,
  `jsStartsWith`) over the character list.
* Raster images (`ImageData`) are a width, a height and a row-major list
  of RGBA pixels with natural-number channels; index `(y*width + x)`
  holds pixel `(x, y)`, matching the flat `Uint8ClampedArray` layout
  (4 bytes per pixel) of the source.
* Floating-point constants are mapped to exact rationals:
  `width * 0.3 ↦ width * 3 / 10`, `height * 0.85 ↦ height * 17 / 20`,
  `videoWidth * 0.1 ↦ videoWidth / 10` (floored, as in the source).
* External capabilities (model calls, canvas rasterisation of the live
  video) are opaque parameters; timers become explicit state so that
  scheduling and cancellation are visible.
-/

/-- Model of JavaScript `String.prototype.trim`: drop leading and trailing
whitespace characters. -/
def jsTrim (s : String) : String :=
  String.mk (((s.toList.dropWhile Char.isWhitespace).reverse.dropWhile Char.isWhitespace).reverse)

/-- Model of JavaScript `String.prototype.toLowerCase` (ASCII case folding,
which is all the source compares). -/
def jsToLower (s : String) : String :=
  String.mk (s.toList.map Char.toLower)

/-- Character-list core of `jsStartsWith`. -/
def startsWithL : List Char → List Char → Bool
  | _, [] => true
  | [], _ :: _ => false
  | a :: as, b :: bs => a == b && startsWithL as bs

/-- Model of JavaScript `s.startsWith(pre)`. -/
def jsStartsWith (s pre : String) : Bool :=
  startsWithL s.toList pre.toList

/-- One RGBA pixel of a raster frame (channels 0–255 in the source). -/
structure Pixel where
  r : ℕ
  g : ℕ
  b : ℕ
  a : ℕ
deriving DecidableEq, Repr

/-- Raster snapshot: width, height and row-major pixel list, the shallow
embedding of a canvas `ImageData`. -/
structure ImageData where
  width : ℕ
  height : ℕ
  data : List Pixel
deriving DecidableEq, Repr

/-- Zero the colour channels of a pixel, leaving alpha alone — exactly what
the banner-masking loop writes (`data[idx] = 0` for R, G, B only). -/
def blackoutPixel (p : Pixel) : Pixel :=
  { p with r := 0, g := 0, b := 0 }

/-- Apply `blackoutPixel` at every index selected by `inRegion`, counting
indices from `n`. This models the in-place double loop of the source that
writes to `(y * width + x) * 4`. -/
def maskIdx (inRegion : ℕ → Bool) : ℕ → List Pixel → List Pixel
  | _, [] => []
  | i, p :: rest =>
      (if inRegion i then blackoutPixel p else p) :: maskIdx inRegion (i + 1) rest

/-- Membership test for the fixed banner-mask rectangle of
`detectAndMaskPopup`: width 30% of the frame width (`Math.floor(width*0.3)`,
here `width*3/10`), horizontally centred, 100 px tall, starting at 85% of the
frame height (`Math.floor(height*0.85)`, here `height*17/20`), clamped to the
frame bounds. -/
def inBannerRegion (width height x y : ℕ) : Bool :=
  let maskWidth := width * 3 / 10
  let maskX := (width - maskWidth) / 2
  let maskY := height * 17 / 20
  let endX := min width (maskX + maskWidth)
  let endY := min height (maskY + 100)
  decide (maskX ≤ x ∧ x < endX ∧ maskY ≤ y ∧ y < endY)

/-- Shallow embedding of `detectAndMaskPopup`: black out the heuristic
capture-indicator banner rectangle of a frame, in place. -/
def detectAndMaskPopup (img : ImageData) : ImageData :=
  { img with
    data := maskIdx
      (fun i => inBannerRegion img.width img.height (i % img.width) (i / img.width))
      0 img.data }

/-- Screen rectangle of the floating overlay (PiP) window, as reported by the
external getter. Coordinates are CSS pixels, kept as rationals. -/
structure PipDetails where
  x : ℚ
  y : ℚ
  width : ℚ
  height : ℚ
  isActive : Bool
  isVisible : Bool
deriving DecidableEq

/-- Shallow embedding of `maskPipWindow`: no-op unless the overlay is active
and visible; otherwise scale the overlay rectangle from screen coordinates
into canvas coordinates (`canvasDim / screenDim` per axis) and fill it black.
Canvas `fillRect` anti-aliasing is abstracted: a pixel is blacked out when
its unit square meets the (rational) rectangle. -/
def maskPipWindow (screenWidth screenHeight : ℕ) (pip : PipDetails) (img : ImageData) : ImageData :=
  if pip.isActive && pip.isVisible then
    let scaleX : ℚ := (img.width : ℚ) / (screenWidth : ℚ)
    let scaleY : ℚ := (img.height : ℚ) / (screenHeight : ℚ)
    let rx := pip.x * scaleX
    let ry := pip.y * scaleY
    let rw := pip.width * scaleX
    let rh := pip.height * scaleY
    { img with
      data := maskIdx
        (fun i =>
          let px := i % img.width
          let py := i / img.width
          decide (rx < (px : ℚ) + 1 ∧ (px : ℚ) < rx + rw ∧ ry < (py : ℚ) + 1 ∧ (py : ℚ) < ry + rh))
        0 img.data }
  else img

/-- Overlay masking as invoked by the loop: the external getter may be
absent (`pipDetailsGetter?.()`), in which case no mask is applied. -/
def maskPipOpt (pip : Option PipDetails) (screenWidth screenHeight : ℕ) (img : ImageData) : ImageData :=
  match pip with
  | some p => maskPipWindow screenWidth screenHeight p img
  | none => img

/-- Per-pixel change test of `calculateImageDifference`: a pixel counts as
changed when any of its three colour channels differs by more than 10. -/
def pixelChanged (p q : Pixel) : Bool :=
  decide (10 < Nat.dist p.r q.r) || decide (10 < Nat.dist p.g q.g) || decide (10 < Nat.dist p.b q.b)

/-- Shallow embedding of `calculateImageDifference`: percentage of pixels
whose colour channels differ by more than the per-channel threshold 10;
`totalPixels` comes from the first image, alpha is ignored. -/
def calculateImageDifference (imageData1 imageData2 : ImageData) : ℚ :=
  let differentPixels :=
    (imageData1.data.zip imageData2.data).countP fun pq => pixelChanged pq.1 pq.2
  let totalPixels := imageData1.width * imageData1.height
  (differentPixels : ℚ) / (totalPixels : ℚ) * 100

/-- Shallow embedding of `getScaledDimensions`. The source computes
`scaleFactor = Math.sqrt(maxPixels / currentPixels)` and floors
`width * scaleFactor`; over the reals
`⌊w·√(m/(w·h))⌋ = ⌊√(w²·m/(w·h))⌋ = Nat.sqrt (w*w*m / (w*h))`, which is the
executable form used here (`getScaledDimensions_fst_eq_floor` below proves
the equivalence). -/
def getScaledDimensions (width height maxPixels : ℕ) : ℕ × ℕ :=
  let currentPixels := width * height
  if maxPixels < currentPixels then
    (Nat.sqrt (width * width * maxPixels / currentPixels),
     Nat.sqrt (height * height * maxPixels / currentPixels))
  else
    (width, height)

/-- Live video source as seen by the loop: its native resolution plus an
opaque rasteriser (`ctx.drawImage(video, 0, 0, w, h)` at requested
dimensions). -/
structure VideoFrame where
  videoWidth : ℕ
  videoHeight : ℕ
  raster : ℕ → ℕ → ImageData

/-- Well-formedness of the opaque rasteriser: a request for a `w × h` draw
yields a `w × h` image with `w * h` pixels. -/
def rasterWellFormed (video : VideoFrame) : Prop :=
  ∀ w h : ℕ, (video.raster w h).width = w ∧ (video.raster w h).height = h ∧
    (video.raster w h).data.length = w * h

/-- Pending `changeDetectionTimer` task: either the polling `runDetection`
callback, or the delayed capture closure armed after a detected change. -/
inductive CDTimer where
  | runDetection
  | captureStep
deriving DecidableEq, Repr

/-- Mutable state of the change-detection subsystem: the zustand store flags,
the closure variables `previousImageData`, `changeDetectionTimer` and
`temporaryPauseTimer`, the presence of a stream, and whether the hidden
detection video element is attached. -/
structure CDState where
  hasStream : Bool
  changeDetectionEnabled : Bool
  isChangeDetectionPaused : Bool
  isAnalyzingScreenChange : Bool
  previousImageData : Option ImageData
  changeDetectionTimer : Option CDTimer
  temporaryPauseTimer : Bool
  videoAttached : Bool
deriving DecidableEq, Repr

/-- Pixel budget `imageSizeForChangeDetection` for the confirmation capture. -/
def imageSizeForChangeDetection : ℕ := 800000

/-- Downscaled, masked analysis frame sampled by one polling tick: the video
drawn at `scaleFactor = 0.1` (floored), overlay-masked, then banner-masked. -/
def analysisFrame (pip : Option PipDetails) (screenWidth screenHeight : ℕ)
    (video : VideoFrame) : ImageData :=
  detectAndMaskPopup (maskPipOpt pip screenWidth screenHeight
    (video.raster (video.videoWidth / 10) (video.videoHeight / 10)))

/-- Shallow embedding of the `runDetection` polling callback (the
non-capture part): bail out without rescheduling when detection is disabled,
reschedule without sampling when paused, otherwise sample a masked analysis
frame, diff it against `previousImageData`, and either arm the delayed
capture closure (change detected) or store the frame as the new baseline and
reschedule. Returns the new state and the `onChange` payloads fired (none in
this phase). -/
def runDetectionStep (threshold : ℚ) (pip : Option PipDetails)
    (screenWidth screenHeight : ℕ) (video : VideoFrame) (s : CDState) :
    CDState × List (ImageData × ImageData) :=
  if !s.changeDetectionEnabled then
    ({ s with changeDetectionTimer := none }, [])
  else if s.isChangeDetectionPaused then
    ({ s with changeDetectionTimer := some CDTimer.runDetection }, [])
  else
    let currentImageData := analysisFrame pip screenWidth screenHeight video
    let changeDetected :=
      match s.previousImageData with
      | some prev => decide (threshold ≤ calculateImageDifference prev currentImageData)
      | none => false
    if changeDetected then
      ({ s with isAnalyzingScreenChange := true,
                changeDetectionTimer := some CDTimer.captureStep }, [])
    else
      ({ s with previousImageData := some currentImageData,
                changeDetectionTimer := some CDTimer.runDetection }, [])

/-- Shallow embedding of the delayed capture closure armed after a detected
change: draw a higher-resolution confirmation frame (budget
`imageSizeForChangeDetection`), mask it (overlay + banner), draw the
full-resolution archival frame **without masking it**, invoke the callback
with both, refresh `previousImageData` from a fresh masked analysis frame,
and reschedule polling. -/
def captureTick (pip : Option PipDetails) (screenWidth screenHeight : ℕ)
    (video : VideoFrame) (s : CDState) :
    CDState × List (ImageData × ImageData) :=
  let dims := getScaledDimensions video.videoWidth video.videoHeight imageSizeForChangeDetection
  let scaledImage :=
    detectAndMaskPopup (maskPipOpt pip screenWidth screenHeight (video.raster dims.1 dims.2))
  let nonScaledImage := video.raster video.videoWidth video.videoHeight
  let resetFrame := analysisFrame pip screenWidth screenHeight video
  ({ s with previousImageData := some resetFrame,
            changeDetectionTimer := some CDTimer.runDetection },
   [(scaledImage, nonScaledImage)])

/-- Firing of the pending `changeDetectionTimer`, dispatching to the polling
callback or the delayed capture closure; a cleared timer never fires. -/
def cdTimerFire (threshold : ℚ) (pip : Option PipDetails)
    (screenWidth screenHeight : ℕ) (video : VideoFrame) (s : CDState) :
    CDState × List (ImageData × ImageData) :=
  match s.changeDetectionTimer with
  | none => (s, [])
  | some CDTimer.runDetection => runDetectionStep threshold pip screenWidth screenHeight video s
  | some CDTimer.captureStep => captureTick pip screenWidth screenHeight video s

/-- Run the loop across a sequence of timer firings, sampling the given
video content at each firing, and collect every `onChange` payload. -/
def cdRun (threshold : ℚ) (pip : Option PipDetails) (screenWidth screenHeight : ℕ) :
    List VideoFrame → CDState → CDState × List (ImageData × ImageData)
  | [], s => (s, [])
  | v :: vs, s =>
      let r := cdTimerFire threshold pip screenWidth screenHeight v s
      let r2 := cdRun threshold pip screenWidth screenHeight vs r.1
      (r2.1, r.2 ++ r2.2)

/-- Shallow embedding of `stopChangeDetection`: clear the pending
`changeDetectionTimer`, clear `previousImageData`, reset the enabled/paused
flags, and remove the hidden detection video element. Note that the
`temporaryPauseTimer` closure variable is not touched. -/
def stopChangeDetection (s : CDState) : CDState :=
  { s with changeDetectionTimer := none,
           previousImageData := none,
           changeDetectionEnabled := false,
           isChangeDetectionPaused := false,
           videoAttached := false }

/-- Shallow embedding of `startChangeDetection` (with the defaulted config):
require a stream, stop any existing detection, raise the enabled flag,
attach the hidden video element and arm the first polling timer. -/
def startChangeDetection (s : CDState) : CDState :=
  if !s.hasStream then s
  else
    let s1 := stopChangeDetection s
    { s1 with changeDetectionEnabled := true,
              isChangeDetectionPaused := false,
              videoAttached := true,
              changeDetectionTimer := some CDTimer.runDetection }

/-- Shallow embedding of `pauseChangeDetection`. -/
def pauseChangeDetection (s : CDState) : CDState :=
  if !s.changeDetectionEnabled then s
  else { s with isChangeDetectionPaused := true }

/-- Shallow embedding of `resumeChangeDetection`: unpause and discard the
stored baseline frame. -/
def resumeChangeDetection (s : CDState) : CDState :=
  if !s.changeDetectionEnabled then s
  else { s with isChangeDetectionPaused := false, previousImageData := none }

/-- Shallow embedding of `pauseChangeDetectionTemporarily`: no-op when
detection is disabled; otherwise clear any pending temporary-pause timer,
set the paused flag and arm a fresh temporary-pause timer. -/
def pauseChangeDetectionTemporarily (s : CDState) : CDState :=
  if !s.changeDetectionEnabled then s
  else { s with isChangeDetectionPaused := true, temporaryPauseTimer := true }

/-- Firing of the armed `temporaryPauseTimer` callback: unpause, discard the
baseline frame, and clear the timer variable. Only an armed timer fires. -/
def tempPauseTimerFire (s : CDState) : CDState :=
  { s with isChangeDetectionPaused := false,
           previousImageData := none,
           temporaryPauseTimer := false }

/-- One follow-up question/answer pair attached to a task step. -/
structure FollowUpItem where
  question : String
  answer : String
deriving DecidableEq, Repr

/-- One step of the task history (`TaskHistoryItem`): the instruction text,
an optional annotated preview image, and the follow-ups asked on the step.
The source leaves `followUps` undefined until first use and reads it as
`followUps ?? []`; the model uses the plain list with `[]` for "absent". -/
structure TaskHistoryItem where
  text : String
  previewImage : Option String := none
  followUps : List FollowUpItem := []
deriving DecidableEq, Repr

/-- Orchestrator state of `TaskProvider`: the task history (`tasks` and
`tasksRef` are kept in sync in the source and collapsed to one list here),
the public and monotonic counters, the busy flags, the re-entrancy guard
`isTriggeringRef`, and the `lastScreenshotRef` / `pendingFollowUpRef` /
`changeDetectionStartedRef` closure refs. -/
structure TaskState where
  goal : String
  tasks : List TaskHistoryItem
  totalTaskCount : ℕ
  totalTaskGeneration : ℕ
  isLoading : Bool
  isLoadingFollowUp : Bool
  isLoadingPreviewImage : Bool
  isTriggering : Bool
  lastScreenshot : String
  pendingFollowUp : String
  changeDetectionStarted : Bool
deriving DecidableEq, Repr

/-- Hard step ceiling `MAX_STEPS`. -/
def MAX_STEPS : ℕ := 150

/-- Observable external effects of one orchestrator operation, for stating
"no external call is made" and "the max-steps event fires once". -/
inductive OrchEvent where
  | captureFrame
  | genActionCall
  | genCoordinateCall
  | snapshotCall
  | maxStepsFired
  | startChangeDetectionCall
  | followupQuestionAsked
  | helpCall
  | followupResponseReceived
deriving DecidableEq, Repr

/-- Update the last element of a list in place (models
`arr[arr.length - 1] = f(arr[arr.length - 1])`); no-op on an empty list. -/
def modifyLast {α : Type} (f : α → α) (l : List α) : List α :=
  match l.getLast? with
  | some a => l.dropLast ++ [f a]
  | none => []

/-- Shallow embedding of `addFollowUpToCurrentTask`: append a follow-up to
the last task, if any. -/
def addFollowUpToCurrentTask (followUp : FollowUpItem) (s : TaskState) : TaskState :=
  { s with tasks := modifyLast (fun t => { t with followUps := t.followUps ++ [followUp] }) s.tasks }

/-- Shallow embedding of `updateCurrentFollowUpAnswer`: replace the answer of
the last follow-up of the last task, if both exist. -/
def updateCurrentFollowUpAnswer (answer : String) (s : TaskState) : TaskState :=
  { s with tasks := modifyLast (fun t =>
      { t with followUps := modifyLast (fun fu => { fu with answer := answer }) t.followUps }) s.tasks }

/-- Shallow embedding of `removeLastFollowUpFromCurrentTask`: drop the last
follow-up of the last task, if both exist. -/
def removeLastFollowUpFromCurrentTask (s : TaskState) : TaskState :=
  { s with tasks := modifyLast (fun t =>
      if t.followUps.isEmpty then t else { t with followUps := t.followUps.dropLast }) s.tasks }

/-- Outcomes of the external capabilities consumed by one action-generation
cycle. `capture` is `captureImageFromStream` (resolving to a pair of scaled /
non-scaled data URLs, or rejecting on a render failure); `genAction` is
`generateAction`; `genCoordinate` is `generateCoordinate`; `snapshot` is
`parseCoordinates` + `createCoordinateSnapshot` (an annotated preview image
or `null`). `Except.error ()` models a promise rejection. -/
structure TrigExt where
  capture : Except Unit (String × String)
  genAction : Except Unit String
  genCoordinate : Except Unit String
  snapshot : Except Unit (Option String)

/-- Matcher for the source regex `^-?\d+,\s*-?\d+$` used to validate a
`generateCoordinate` result ("x,y"). -/
def isCoordinatePair (t : String) : Bool :=
  let dropMinus : List Char → List Char := fun cs =>
    match cs with
    | '-' :: rest => rest
    | _ => cs
  let cs1 := dropMinus t.toList
  let ds1 := cs1.takeWhile Char.isDigit
  let rest1 := cs1.dropWhile Char.isDigit
  !ds1.isEmpty &&
    match rest1 with
    | ',' :: r2 =>
        let cs2 := dropMinus (r2.dropWhile Char.isWhitespace)
        let ds2 := cs2.takeWhile Char.isDigit
        let rest2 := cs2.dropWhile Char.isDigit
        !ds2.isEmpty && rest2.isEmpty
    | _ => false

/-- Reset applied by the `finally` block of
`triggerGenerateTaskDescription`. -/
def finallyFlags (s : TaskState) : TaskState :=
  { s with isTriggering := false, isLoading := false, isLoadingPreviewImage := false }

/-- Best-effort preview-annotation phase of `triggerGenerateTaskDescription`
(the `generateCoordinate` / `createCoordinateSnapshot` block). Returns the
new state, the external calls made, and whether a rejection escaped to the
outer catch. -/
def previewPhase (ext : TrigExt) (text : String) (isLink isStd : Bool) (s : TaskState) :
    TaskState × List OrchEvent × Bool :=
  if !isLink && !isStd && text != "" then
    match ext.genCoordinate with
    | Except.error _ => (s, [OrchEvent.genCoordinateCall], true)
    | Except.ok coordinates =>
        if coordinates != "" && isCoordinatePair (jsTrim coordinates) then
          match ext.snapshot with
          | Except.error _ => (s, [OrchEvent.genCoordinateCall, OrchEvent.snapshotCall], true)
          | Except.ok (some generatedPreviewImage) =>
              ({ s with tasks := modifyLast (fun t =>
                    { t with previewImage := some generatedPreviewImage }) s.tasks },
               [OrchEvent.genCoordinateCall, OrchEvent.snapshotCall], false)
          | Except.ok none =>
              (s, [OrchEvent.genCoordinateCall, OrchEvent.snapshotCall], false)
        else (s, [OrchEvent.genCoordinateCall], false)
  else (s, [], false)

/-- Success continuation of `triggerGenerateTaskDescription`, entered once
`generateAction` has resolved: record the screenshot, bump the monotonic
generation counter (emitting the max-steps analytics event exactly when it
reaches `MAX_STEPS`), bump the public step counter, append the trimmed
instruction (dropping an empty one via `filter`), run the best-effort
preview phase, start change detection for non-terminal instructions, and
apply the `finally` flag reset. -/
def successPhase (ext : TrigExt) (imageDataUrl action : String) (s2 : TaskState) :
    TaskState × List OrchEvent :=
  let s3 := { s2 with lastScreenshot := imageDataUrl,
                      totalTaskGeneration := s2.totalTaskGeneration + 1 }
  let maxEvts :=
    if s3.totalTaskGeneration = MAX_STEPS then [OrchEvent.maxStepsFired] else []
  let text := jsTrim action
  let s4 := { s3 with totalTaskCount := s3.totalTaskCount + 1 }
  let s5 := { s4 with
    tasks := (s4.tasks ++ [({ text := text } : TaskHistoryItem)]).filter
      (fun item => item.text != ""),
    isLoading := false }
  let textLower := jsToLower text
  let isLink := jsStartsWith text "https://"
  let isStandardizedInstruction :=
    textLower = "done" || textLower = "done." ||
    textLower = "wait" || textLower = "wait." ||
    jsStartsWith textLower "scroll down" || jsStartsWith textLower "scroll up"
  let s6 := { s5 with isLoadingPreviewImage := true }
  let pr := previewPhase ext text isLink isStandardizedInstruction s6
  if pr.2.2 then
    (finallyFlags pr.1, maxEvts ++ pr.2.1)
  else
    let s7 := { pr.1 with isLoadingPreviewImage := false }
    let cd :=
      if !s7.changeDetectionStarted && text != "" &&
          textLower != "done" && textLower != "done." then
        ({ s7 with changeDetectionStarted := true },
         [OrchEvent.startChangeDetectionCall])
      else (s7, ([] : List OrchEvent))
    (finallyFlags cd.1, maxEvts ++ pr.2.1 ++ cd.2)

/-- Shallow embedding of one full `triggerGenerateTaskDescription` cycle.
Guard: no-op when the step ceiling is reached or a cycle is in flight.
Otherwise: raise the busy flags, capture a frame, optionally merge a pending
follow-up (retracting the superseded last step **before** awaiting
`generateAction`), await `generateAction`, then on success record the
screenshot, bump both counters (emitting the max-steps analytics event
exactly when the monotonic counter reaches `MAX_STEPS`), append the trimmed
instruction (dropping it again via `filter` when empty), run the best-effort
preview phase, start change detection for non-terminal instructions, and in
all cases apply the `finally` flag reset. A rejection anywhere jumps to the
catch/finally blocks without further history edits. -/
def triggerGenerateTaskDescription (ext : TrigExt) (s : TaskState) : TaskState × List OrchEvent :=
  if MAX_STEPS ≤ s.totalTaskGeneration ∨ s.isTriggering then (s, [])
  else
    let s1 := { s with isTriggering := true, isLoading := true }
    match ext.capture with
    | Except.error _ => (finallyFlags s1, [OrchEvent.captureFrame])
    | Except.ok (imageDataUrl, _nonScaledImage) =>
        let s2 :=
          if s1.pendingFollowUp ≠ "" ∧ s1.lastScreenshot ≠ "" ∧ s1.tasks ≠ [] then
            { s1 with pendingFollowUp := "",
                      tasks := s1.tasks.dropLast,
                      totalTaskCount := s1.totalTaskCount - 1 }
          else s1
        match ext.genAction with
        | Except.error _ => (finallyFlags s2, [OrchEvent.captureFrame, OrchEvent.genActionCall])
        | Except.ok action =>
            let r := successPhase ext imageDataUrl action s2
            (r.1, [OrchEvent.captureFrame, OrchEvent.genActionCall] ++ r.2)

/-- Shallow embedding of `onNextTask`. -/
def onNextTask (ext : TrigExt) (s : TaskState) : TaskState × List OrchEvent :=
  if MAX_STEPS ≤ s.totalTaskGeneration then (s, [])
  else triggerGenerateTaskDescription ext s

/-- Shallow embedding of `onRefreshTask`: discard the last step, then
regenerate. -/
def onRefreshTask (ext : TrigExt) (s : TaskState) : TaskState × List OrchEvent :=
  if MAX_STEPS ≤ s.totalTaskGeneration then (s, [])
  else
    let s1 :=
      if s.tasks ≠ [] then
        { s with tasks := s.tasks.dropLast, totalTaskCount := s.totalTaskCount - 1 }
      else s
    triggerGenerateTaskDescription ext s1

/-- Shallow embedding of `triggerFirstTask`. -/
def triggerFirstTask (ext : TrigExt) (s : TaskState) : TaskState × List OrchEvent :=
  if MAX_STEPS ≤ s.totalTaskGeneration then (s, [])
  else triggerGenerateTaskDescription ext s

/-- One call to `onNextTask` / `onRefreshTask` / `triggerFirstTask`, with
the external outcomes it would consume. -/
inductive OrchOp where
  | next (ext : TrigExt)
  | refreshTask (ext : TrigExt)
  | firstTask (ext : TrigExt)

/-- Dispatch one orchestrator operation. -/
def applyOrchOp (op : OrchOp) (s : TaskState) : TaskState × List OrchEvent :=
  match op with
  | OrchOp.next ext => onNextTask ext s
  | OrchOp.refreshTask ext => onRefreshTask ext s
  | OrchOp.firstTask ext => triggerFirstTask ext s

/-- Run a sequence of orchestrator operations, collecting all events. -/
def runOrchOps : List OrchOp → TaskState → TaskState × List OrchEvent
  | [], s => (s, [])
  | op :: ops, s =>
      let r := applyOrchOp op s
      let r2 := runOrchOps ops r.1
      (r2.1, r.2 ++ r2.2)

/-- Number of max-steps analytics events in an event trace. -/
def countMaxStepsEvents (evs : List OrchEvent) : ℕ :=
  evs.countP fun e => decide (e = OrchEvent.maxStepsFired)

/-- External outcomes consumed by one `sendFollowUpMessage` call: the frame
capture, the streamed partial payloads delivered to the `onPartial` callback
of `generateHelpResponse`, the final resolution (or rejection) of that call,
and the outcomes for a nested retry `triggerGenerateTaskDescription`. -/
structure FollowExt where
  capture : Except Unit (String × String)
  chunks : List String
  finalText : Except Unit String
  trig : TrigExt

/-- Shallow embedding of the `onPartial` streaming callback body of
`sendFollowUpMessage`, acting on `(state, hasAddedFollowUp, isRegenerating)`:
ignore everything once regeneration is signalled; suppress any payload that
is a prefix of the sentinel `"Regenerate"`; on a payload trimming to the
sentinel, retract any partially-appended follow-up and flag regeneration;
otherwise create the follow-up on the first payload and update its answer in
place on later ones. -/
def handleStreamChunk (question streamedMessage : String)
    (acc : TaskState × Bool × Bool) : TaskState × Bool × Bool :=
  let s := acc.1
  let hasAddedFollowUp := acc.2.1
  let isRegenerating := acc.2.2
  if isRegenerating then acc
  else if jsStartsWith "Regenerate" streamedMessage then acc
  else if jsTrim streamedMessage = "Regenerate" then
    ((if hasAddedFollowUp then removeLastFollowUpFromCurrentTask s else s), false, true)
  else if !hasAddedFollowUp then
    (addFollowUpToCurrentTask { question := question, answer := streamedMessage } s,
     true, isRegenerating)
  else
    (updateCurrentFollowUpAnswer streamedMessage s, hasAddedFollowUp, isRegenerating)

/-- Shallow embedding of `sendFollowUpMessage`: no-op on a missing or empty
question; otherwise track the question, raise the follow-up busy flag,
capture a frame, stream the help response through `handleStreamChunk`, and
dispatch on the final text — the `"Regenerate"` sentinel takes the retry
path (retract any partial follow-up, stash the question as the pending
follow-up and run a fresh action-generation cycle), otherwise finalize the
follow-up answer. A rejection retracts any partial follow-up. -/
def sendFollowUpMessage (ext : FollowExt) (question : Option String) (s : TaskState) :
    TaskState × List OrchEvent :=
  match question with
  | none => (s, [])
  | some q =>
      if q = "" then (s, [])
      else
        let s1 := { s with isLoadingFollowUp := true }
        match ext.capture with
        | Except.error _ =>
            ({ s1 with isLoadingFollowUp := false },
             [OrchEvent.followupQuestionAsked, OrchEvent.captureFrame])
        | Except.ok _ =>
            let st := ext.chunks.foldl (fun acc c => handleStreamChunk q c acc) (s1, false, false)
            match ext.finalText with
            | Except.error _ =>
                let s2 := if st.2.1 then removeLastFollowUpFromCurrentTask st.1 else st.1
                ({ s2 with isLoadingFollowUp := false },
                 [OrchEvent.followupQuestionAsked, OrchEvent.captureFrame, OrchEvent.helpCall])
            | Except.ok text =>
                if jsTrim text = "Regenerate" then
                  let s2 := if st.2.1 then removeLastFollowUpFromCurrentTask st.1 else st.1
                  let s3 := { s2 with pendingFollowUp := q, isLoadingFollowUp := false }
                  let t := triggerGenerateTaskDescription ext.trig s3
                  (t.1, [OrchEvent.followupQuestionAsked, OrchEvent.captureFrame,
                         OrchEvent.helpCall] ++ t.2)
                else
                  let s2 := if st.2.1 then st.1
                    else addFollowUpToCurrentTask { question := q, answer := text } st.1
                  ({ s2 with isLoadingFollowUp := false },
                   [OrchEvent.followupQuestionAsked, OrchEvent.captureFrame,
                    OrchEvent.helpCall, OrchEvent.followupResponseReceived])

/-- Decidable check that every pixel inside the banner-mask rectangle of a
frame is pure black (R = G = B = 0). -/
def bannerRectBlack (img : ImageData) : Bool :=
  (List.range (img.width * img.height)).all fun i =>
    if inBannerRegion img.width img.height (i % img.width) (i / img.width) then
      (img.data.getD i ⟨0, 0, 0, 0⟩).r == 0 &&
      (img.data.getD i ⟨0, 0, 0, 0⟩).g == 0 &&
      (img.data.getD i ⟨0, 0, 0, 0⟩).b == 0
    else true

/-- Uniformly white `w × h` frame. -/
def whiteImage (w h : ℕ) : ImageData :=
  ⟨w, h, List.replicate (w * h) ⟨255, 255, 255, 255⟩⟩

/-- Concrete 10 × 10 all-white live video source. -/
def whiteVideo10 : VideoFrame :=
  ⟨10, 10, fun w h => whiteImage w h⟩

/-- Change-detection state before anything is started (a live stream is
present). -/
def cdInitState : CDState :=
  { hasStream := true,
    changeDetectionEnabled := false,
    isChangeDetectionPaused := false,
    isAnalyzingScreenChange := false,
    previousImageData := none,
    changeDetectionTimer := none,
    temporaryPauseTimer := false,
    videoAttached := false }

/-- Change-detection state with the delayed capture closure armed, as left
by a detection tick that crossed the threshold. -/
def cdCaptureArmedState : CDState :=
  { cdInitState with
    changeDetectionEnabled := true,
    isAnalyzingScreenChange := true,
    videoAttached := true,
    changeDetectionTimer := some CDTimer.captureStep }

/-- Concrete orchestrator state for exercising the follow-up merge path:
one step in the history, a pending follow-up and a stored screenshot. -/
def mergePathState : TaskState :=
  { goal := "open settings",
    tasks := [{ text := "Click the gear icon" }],
    totalTaskCount := 1,
    totalTaskGeneration := 5,
    isLoading := false,
    isLoadingFollowUp := false,
    isLoadingPreviewImage := false,
    isTriggering := false,
    lastScreenshot := "data:image/jpeg;base64,previous",
    pendingFollowUp := "that button is not there",
    changeDetectionStarted := true }

/-- Concrete external outcomes where the frame capture succeeds and
`generateAction` rejects. -/
def genActionFailsExt : TrigExt :=
  { capture := Except.ok ("data:scaled", "data:full"),
    genAction := Except.error (),
    genCoordinate := Except.ok "None",
    snapshot := Except.ok none }


/-- State of the change-detection subsystem after: start, one polling tick
on the white video, a temporary pause, then `stopChangeDetection`. -/
def c2TraceStopped : CDState :=
  stopChangeDetection (pauseChangeDetectionTemporarily
    (cdTimerFire 1 none 1920 1080 whiteVideo10 (startChangeDetection cdInitState)).1)

/-- State after restarting detection from `c2TraceStopped` and letting one
polling tick record a fresh baseline frame. -/
def c2TraceRestarted : CDState :=
  (cdTimerFire 1 none 1920 1080 whiteVideo10 (startChangeDetection c2TraceStopped)).1


/-- Floor of a real square root is the natural square root of the floor. -/
theorem natFloor_real_sqrt (x : ℝ) (hx : 0 ≤ x) :
    ⌊Real.sqrt x⌋₊ = Nat.sqrt ⌊x⌋₊ := by
  rw [Nat.floor_eq_iff (Real.sqrt_nonneg x)]
  constructor
  · calc (Nat.sqrt ⌊x⌋₊ : ℝ) ≤ Real.sqrt (⌊x⌋₊ : ℝ) := Real.nat_sqrt_le_real_sqrt
    _ ≤ Real.sqrt x := Real.sqrt_le_sqrt (Nat.floor_le hx)
  · have h1 : x < ((Nat.sqrt ⌊x⌋₊ + 1 : ℕ) : ℝ) ^ 2 := by
      have h2 : x < (⌊x⌋₊ : ℝ) + 1 := Nat.lt_floor_add_one x
      have h3 : (⌊x⌋₊ + 1 : ℕ) ≤ (Nat.sqrt ⌊x⌋₊ + 1) ^ 2 := Nat.lt_succ_sqrt' ⌊x⌋₊
      have h4 : ((⌊x⌋₊ + 1 : ℕ) : ℝ) ≤ ((Nat.sqrt ⌊x⌋₊ + 1 : ℕ) : ℝ) ^ 2 := by
        exact_mod_cast Nat.cast_le.mpr (by exact_mod_cast h3)
      push_cast at h4 ⊢
      linarith
    have h5 : (0 : ℝ) < ((Nat.sqrt ⌊x⌋₊ + 1 : ℕ) : ℝ) := by positivity
    have := (Real.sqrt_lt' h5).mpr h1
    push_cast at this ⊢
    linarith

/-- Scaled width equals the floored `width * Math.sqrt(maxPixels/currentPixels)`
of the source (and symmetrically for the height). -/
theorem getScaledDimensions_fst_eq_floor (w h m : ℕ) :
    Nat.sqrt (w * w * m / (w * h)) = ⌊(w : ℝ) * Real.sqrt ((m : ℝ) / ((w : ℝ) * (h : ℝ)))⌋₊ := by
  have hq : (0 : ℝ) ≤ (m : ℝ) / ((w : ℝ) * (h : ℝ)) := by positivity
  have hmul : (w : ℝ) * Real.sqrt ((m : ℝ) / ((w : ℝ) * (h : ℝ)))
      = Real.sqrt (((w * w * m : ℕ) : ℝ) / ((w * h : ℕ) : ℝ)) := by
    rw [show ((w * w * m : ℕ) : ℝ) / ((w * h : ℕ) : ℝ)
          = ((w : ℝ) * (w : ℝ)) * ((m : ℝ) / ((w : ℝ) * (h : ℝ))) by push_cast; ring,
        Real.sqrt_mul (mul_self_nonneg _), Real.sqrt_mul_self (Nat.cast_nonneg w)]
  rw [hmul, natFloor_real_sqrt _ (by positivity), Nat.floor_div_nat, Nat.floor_natCast]

/-- Product of the two scaled dimensions stays within the pixel budget. -/
theorem getScaledDimensions_mul_le (w h m : ℕ) (hlt : m < w * h) :
    Nat.sqrt (w * w * m / (w * h)) * Nat.sqrt (h * h * m / (w * h)) ≤ m := by
  have hp : 0 < w * h := lt_of_le_of_lt (Nat.zero_le m) hlt
  set a := Nat.sqrt (w * w * m / (w * h)) with ha
  set b := Nat.sqrt (h * h * m / (w * h)) with hb
  have haa : a * a ≤ w * w * m / (w * h) := by
    simpa [pow_two] using Nat.sqrt_le' (w * w * m / (w * h))
  have hbb : b * b ≤ h * h * m / (w * h) := by
    simpa [pow_two] using Nat.sqrt_le' (h * h * m / (w * h))
  have haa' : a * a * (w * h) ≤ w * w * m := (Nat.le_div_iff_mul_le hp).mp haa
  have hbb' : b * b * (w * h) ≤ h * h * m := (Nat.le_div_iff_mul_le hp).mp hbb
  have hprod : (a * a * (w * h)) * (b * b * (w * h)) ≤ (w * w * m) * (h * h * m) :=
    Nat.mul_le_mul haa' hbb'
  have hsq : (a * b) * (a * b) * ((w * h) * (w * h)) ≤ (m * m) * ((w * h) * (w * h)) := by
    calc (a * b) * (a * b) * ((w * h) * (w * h))
        = (a * a * (w * h)) * (b * b * (w * h)) := by ring
    _ ≤ (w * w * m) * (h * h * m) := hprod
    _ = (m * m) * ((w * h) * (w * h)) := by ring
  have hsq' : (a * b) * (a * b) ≤ m * m :=
    Nat.le_of_mul_le_mul_right hsq (Nat.mul_pos hp hp)
  by_contra hcon
  exact absurd hsq' (not_le.mpr (Nat.mul_self_lt_mul_self (not_le.mp hcon)))

/-- C7: the Frame Scaler never exceeds the pixel budget when it scales,
returns the input unchanged when the input already fits (no upscaling),
and each output dimension is the floor of the corresponding input dimension
times the single square-root scale factor, so the aspect ratio is preserved
within rounding and both dimensions are (floored) integers. -/
theorem scaler_spec (w h m : ℕ) (hm : 0 < m) :
    (w * h ≤ m → getScaledDimensions w h m = (w, h)) ∧
    (m < w * h →
      (getScaledDimensions w h m).1 * (getScaledDimensions w h m).2 ≤ m ∧
      (getScaledDimensions w h m).1 = ⌊(w : ℝ) * Real.sqrt ((m : ℝ) / ((w : ℝ) * (h : ℝ)))⌋₊ ∧
      (getScaledDimensions w h m).2 = ⌊(h : ℝ) * Real.sqrt ((m : ℝ) / ((w : ℝ) * (h : ℝ)))⌋₊) := by
  constructor
  · intro hle
    simp [getScaledDimensions, not_lt.mpr hle]
  · intro hlt
    have hfst : (getScaledDimensions w h m).1 = Nat.sqrt (w * w * m / (w * h)) := by
      simp [getScaledDimensions, hlt]
    have hsnd : (getScaledDimensions w h m).2 = Nat.sqrt (h * h * m / (w * h)) := by
      simp [getScaledDimensions, hlt]
    refine ⟨?_, ?_, ?_⟩
    · rw [hfst, hsnd]; exact getScaledDimensions_mul_le w h m hlt
    · rw [hfst]; exact getScaledDimensions_fst_eq_floor w h m
    · rw [hsnd]
      have := getScaledDimensions_fst_eq_floor h w m
      rw [show h * w = w * h by ring] at this
      rw [this, show (h : ℝ) * (w : ℝ) = (w : ℝ) * (h : ℝ) by ring]

/-- Witness for `scaler_spec` at the concrete input (4, 3, 6). -/
theorem scaler_spec_witness :
    (0 < 6) ∧
    ((4 * 3 ≤ 6 → getScaledDimensions 4 3 6 = (4, 3)) ∧
     (6 < 4 * 3 →
       (getScaledDimensions 4 3 6).1 * (getScaledDimensions 4 3 6).2 ≤ 6 ∧
       (getScaledDimensions 4 3 6).1 = ⌊(4 : ℝ) * Real.sqrt ((6 : ℝ) / ((4 : ℝ) * (3 : ℝ)))⌋₊ ∧
       (getScaledDimensions 4 3 6).2 = ⌊(3 : ℝ) * Real.sqrt ((6 : ℝ) / ((4 : ℝ) * (3 : ℝ)))⌋₊)) := by
  refine ⟨by decide, ?_⟩
  have h := scaler_spec 4 3 6 (by decide)
  exact_mod_cast h

/-- Comparing a pixel with itself never counts as changed. -/
theorem pixelChanged_self (p : Pixel) : pixelChanged p p = false := by
  simp [pixelChanged, Nat.dist_self]

/-- Pixel change detection is symmetric (per-channel absolute differences). -/
theorem pixelChanged_comm (p q : Pixel) : pixelChanged p q = pixelChanged q p := by
  simp [pixelChanged, Nat.dist_comm]

/-- Zipping a pixel list with itself yields no changed pixels. -/
theorem countP_zip_self (l : List Pixel) :
    (l.zip l).countP (fun pq => pixelChanged pq.1 pq.2) = 0 := by
  induction l with
  | nil => rfl
  | cons p rest ih => simpa [List.countP_cons, pixelChanged_self] using ih

/-- Diffing a frame against itself reports zero percent change. -/
theorem calculateImageDifference_self (img : ImageData) :
    calculateImageDifference img img = 0 := by
  simp [calculateImageDifference, countP_zip_self]

/-- C8: the Frame Differ reports 0 for a frame diffed against itself, is
symmetric in its two arguments (for same-dimension frames), and reports 100
when every pixel's R channel differs by 255 — counting a pixel as changed
iff some colour channel differs by more than 10, ignoring alpha, and
returning `100 * changedCount / totalPixels`. -/
theorem differ_spec :
    (∀ img : ImageData, 0 < img.width * img.height →
      calculateImageDifference img img = 0) ∧
    (∀ a b : ImageData, a.width = b.width → a.height = b.height →
      calculateImageDifference a b = calculateImageDifference b a) ∧
    (∀ a b : ImageData, a.width = b.width → a.height = b.height →
      a.data.length = a.width * a.height → b.data.length = b.width * b.height →
      0 < a.width * a.height →
      (∀ pq ∈ a.data.zip b.data, Nat.dist pq.1.r pq.2.r = 255) →
      calculateImageDifference a b = 100) := by
  refine ⟨?_, ?_, ?_⟩
  · intro img _
    exact calculateImageDifference_self img
  · intro a b hw hh
    have hzip : b.data.zip a.data = (a.data.zip b.data).map Prod.swap :=
      (List.zip_swap a.data b.data).symm
    have hcnt : (b.data.zip a.data).countP (fun pq => pixelChanged pq.1 pq.2)
        = (a.data.zip b.data).countP (fun pq => pixelChanged pq.1 pq.2) := by
      rw [hzip, List.countP_map]
      refine List.countP_congr ?_
      intro pq _
      simp [Function.comp, pixelChanged_comm]
    simp only [calculateImageDifference, hcnt, hw, hh]
  · intro a b hw hh hla hlb hpos hall
    have hcnt : (a.data.zip b.data).countP (fun pq => pixelChanged pq.1 pq.2)
        = (a.data.zip b.data).length := by
      rw [List.countP_eq_length]
      intro pq hpq
      have h255 := hall pq hpq
      simp [pixelChanged, h255]
    have hlen : (a.data.zip b.data).length = a.width * a.height := by
      rw [List.length_zip, hla, hlb, hw, hh, Nat.min_self]
    have hne : ((a.width * a.height : ℕ) : ℚ) ≠ 0 := by
      exact_mod_cast Nat.pos_iff_ne_zero.mp hpos
    simp only [calculateImageDifference, hcnt, hlen]
    rw [div_self hne, one_mul]

/-- Witness for `differ_spec`: a 1×1 frame for the reflexivity and symmetry
parts, and a pair of 1×1 frames whose R channels differ by 255 for the
100-percent part. -/
theorem differ_spec_witness :
    (0 < (ImageData.mk 1 1 [⟨0, 0, 0, 255⟩]).width * (ImageData.mk 1 1 [⟨0, 0, 0, 255⟩]).height ∧
      calculateImageDifference (ImageData.mk 1 1 [⟨0, 0, 0, 255⟩]) (ImageData.mk 1 1 [⟨0, 0, 0, 255⟩]) = 0) ∧
    (calculateImageDifference (ImageData.mk 1 1 [⟨255, 0, 0, 255⟩]) (ImageData.mk 1 1 [⟨0, 0, 0, 255⟩])
      = calculateImageDifference (ImageData.mk 1 1 [⟨0, 0, 0, 255⟩]) (ImageData.mk 1 1 [⟨255, 0, 0, 255⟩])) ∧
    (calculateImageDifference (ImageData.mk 1 1 [⟨255, 0, 0, 255⟩]) (ImageData.mk 1 1 [⟨0, 0, 0, 255⟩]) = 100) := by
  refine ⟨⟨by decide, ?_⟩, ?_, ?_⟩
  · exact differ_spec.1 (ImageData.mk 1 1 [⟨0, 0, 0, 255⟩]) (by decide)
  · exact differ_spec.2.1 (ImageData.mk 1 1 [⟨255, 0, 0, 255⟩]) (ImageData.mk 1 1 [⟨0, 0, 0, 255⟩]) rfl rfl
  · exact differ_spec.2.2 (ImageData.mk 1 1 [⟨255, 0, 0, 255⟩]) (ImageData.mk 1 1 [⟨0, 0, 0, 255⟩])
      rfl rfl rfl rfl (by decide) (by decide)

/-- Masking preserves the pixel count. -/
theorem maskIdx_length (inRegion : ℕ → Bool) (l : List Pixel) :
    ∀ n, (maskIdx inRegion n l).length = l.length := by
  induction l with
  | nil => intro n; rfl
  | cons p rest ih => intro n; simp [maskIdx, ih]

/-- Pixel lookup after `maskIdx`: indices in the region are blacked out,
all others are untouched. -/
theorem maskIdx_getD (inRegion : ℕ → Bool) (l : List Pixel) :
    ∀ n j d, j < l.length →
      (maskIdx inRegion n l).getD j d =
        (if inRegion (n + j) then blackoutPixel (l.getD j d) else l.getD j d) := by
  induction l with
  | nil => intro n j d hj; simp at hj
  | cons p rest ih =>
      intro n j d hj
      cases j with
      | zero => simp [maskIdx]
      | succ j =>
          have hj' : j < rest.length := by simpa using hj
          have := ih (n + 1) j d hj'
          simp only [maskIdx, List.getD_cons_succ, this]
          have harith : n + 1 + j = n + (j + 1) := by omega
          rw [harith]

/-- Overlay masking never changes the frame dimensions or pixel count. -/
theorem maskPipOpt_dims (pip : Option PipDetails) (sw sh : ℕ) (img : ImageData) :
    (maskPipOpt pip sw sh img).width = img.width ∧
    (maskPipOpt pip sw sh img).height = img.height ∧
    (maskPipOpt pip sw sh img).data.length = img.data.length := by
  match pip with
  | none => exact ⟨rfl, rfl, rfl⟩
  | some p =>
      simp only [maskPipOpt, maskPipWindow]
      split
      · exact ⟨rfl, rfl, maskIdx_length _ _ _⟩
      · exact ⟨rfl, rfl, rfl⟩

/-- Banner masking really blackens the whole banner rectangle of any
well-formed frame. -/
theorem bannerRectBlack_detectAndMaskPopup (img : ImageData)
    (hlen : img.data.length = img.width * img.height) :
    bannerRectBlack (detectAndMaskPopup img) = true := by
  unfold bannerRectBlack detectAndMaskPopup
  rw [List.all_eq_true]
  intro i hi
  rw [List.mem_range] at hi
  by_cases hreg : inBannerRegion img.width img.height (i % img.width) (i / img.width) = true
  · have hlt : i < img.data.length := by rw [hlen]; exact hi
    rw [maskIdx_getD _ _ 0 i _ hlt]
    simp [hreg, blackoutPixel]
  · simp only []
    rw [if_neg]
    exact fun h => hreg h

/-- C1 (amended): every `onChange` payload fired by the delayed capture
closure has its banner rectangle blacked out in the *confirmation* (first)
frame, while the *archival* (second) frame is the raw full-resolution
rasterisation of the video with no masking applied at all. -/
theorem cd_capture_masks_confirmation_only (pip : Option PipDetails) (sw sh : ℕ)
    (video : VideoFrame) (s : CDState) (hwf : rasterWellFormed video) :
    ∀ e ∈ (captureTick pip sw sh video s).2,
      bannerRectBlack e.1 = true ∧
      e.2 = video.raster video.videoWidth video.videoHeight := by
  intro e he
  have he' : e =
      (detectAndMaskPopup (maskPipOpt pip sw sh (video.raster
        (getScaledDimensions video.videoWidth video.videoHeight imageSizeForChangeDetection).1
        (getScaledDimensions video.videoWidth video.videoHeight imageSizeForChangeDetection).2)),
       video.raster video.videoWidth video.videoHeight) := by
    simpa [captureTick] using he
  subst he'
  refine ⟨?_, rfl⟩
  apply bannerRectBlack_detectAndMaskPopup
  obtain ⟨hw, hh, hl⟩ := maskPipOpt_dims pip sw sh (video.raster
    (getScaledDimensions video.videoWidth video.videoHeight imageSizeForChangeDetection).1
    (getScaledDimensions video.videoWidth video.videoHeight imageSizeForChangeDetection).2)
  rw [hw, hh, hl]
  obtain ⟨hw', hh', hl'⟩ := hwf
    (getScaledDimensions video.videoWidth video.videoHeight imageSizeForChangeDetection).1
    (getScaledDimensions video.videoWidth video.videoHeight imageSizeForChangeDetection).2
  rw [hw', hh', hl']

/-- Witness for `cd_capture_masks_confirmation_only` on the concrete white
10×10 video: the confirmation frame is banner-masked and the archival frame
is the raw full-resolution frame. -/
theorem cd_capture_masks_confirmation_only_witness :
    bannerRectBlack ((captureTick none 1920 1080 whiteVideo10 cdCaptureArmedState).2.getD 0
      (⟨0, 0, []⟩, ⟨0, 0, []⟩)).1 = true ∧
    ((captureTick none 1920 1080 whiteVideo10 cdCaptureArmedState).2.getD 0
      (⟨0, 0, []⟩, ⟨0, 0, []⟩)).2 = whiteVideo10.raster 10 10 := by
  have h := cd_capture_masks_confirmation_only none 1920 1080 whiteVideo10 cdCaptureArmedState
    (fun w h => ⟨rfl, rfl, by simp [whiteVideo10, whiteImage]⟩)
  exact h _ (by decide)

/-- C1 (counterexample): the delayed capture closure fires `onChange` with an
archival frame whose banner rectangle is *not* blacked out — on an all-white
10×10 video the archival frame stays all white. -/
theorem cd_capture_archival_unmasked_cex :
    (captureTick none 1920 1080 whiteVideo10 cdCaptureArmedState).2.length = 1 ∧
    ((captureTick none 1920 1080 whiteVideo10 cdCaptureArmedState).2.all
      fun e => bannerRectBlack e.2) = false := by decide

/-- C2 (amended): `stopChangeDetection` clears the pending polling/capture
timer, clears the stored previous frame, resets the enabled and paused
flags, tears down the detection-only video element, and is idempotent — but
it leaves the `temporaryPauseTimer` closure variable exactly as it was, so a
temporary-pause timer armed earlier survives `stop()`. -/
theorem stopChangeDetection_spec (s : CDState) :
    (stopChangeDetection s).changeDetectionTimer = none ∧
    (stopChangeDetection s).previousImageData = none ∧
    (stopChangeDetection s).changeDetectionEnabled = false ∧
    (stopChangeDetection s).isChangeDetectionPaused = false ∧
    (stopChangeDetection s).videoAttached = false ∧
    stopChangeDetection (stopChangeDetection s) = stopChangeDetection s ∧
    (stopChangeDetection s).temporaryPauseTimer = s.temporaryPauseTimer :=
  ⟨rfl, rfl, rfl, rfl, rfl, rfl, rfl⟩

/-- C2 (counterexample): after `pauseChangeDetectionTemporarily` followed by
`stopChangeDetection`, the temporary-pause timer is still armed, and once
the loop is restarted its firing mutates the loop's state (it discards the
freshly recorded baseline frame and clears the paused flag). -/
theorem stop_leaves_temp_timer_cex :
    c2TraceStopped.temporaryPauseTimer = true ∧
    tempPauseTimerFire c2TraceRestarted ≠ c2TraceRestarted := by decide

/-- Invariant of one timer firing fed with the fixed video `v`: starting
with no armed capture closure and a baseline that is either absent or the
analysis frame of `v`, the firing emits no `onChange` payload and
re-establishes the invariant. -/
theorem cdTimerFire_identical_step
    (threshold : ℚ) (pip : Option PipDetails) (sw sh : ℕ) (v : VideoFrame) (s : CDState)
    (hth : 0 < threshold)
    (htimer : s.changeDetectionTimer ≠ some CDTimer.captureStep)
    (hprev : s.previousImageData = none ∨
      s.previousImageData = some (analysisFrame pip sw sh v)) :
    (cdTimerFire threshold pip sw sh v s).2 = [] ∧
    (cdTimerFire threshold pip sw sh v s).1.changeDetectionTimer ≠ some CDTimer.captureStep ∧
    ((cdTimerFire threshold pip sw sh v s).1.previousImageData = none ∨
      (cdTimerFire threshold pip sw sh v s).1.previousImageData =
        some (analysisFrame pip sw sh v)) := by
  match htim : s.changeDetectionTimer with
  | none =>
      simp [cdTimerFire, htim, hprev]
  | some CDTimer.runDetection =>
      simp only [cdTimerFire, htim]
      unfold runDetectionStep
      by_cases hen : s.changeDetectionEnabled
      · by_cases hpa : s.isChangeDetectionPaused
        · simp [hen, hpa, hprev]
        · rcases hprev with hnone | hsome
          · simp [hen, hpa, hnone]
          · have hdiff : calculateImageDifference (analysisFrame pip sw sh v)
                (analysisFrame pip sw sh v) = 0 := calculateImageDifference_self _
            have hdec : decide (threshold ≤ calculateImageDifference
                (analysisFrame pip sw sh v) (analysisFrame pip sw sh v)) = false := by
              rw [hdiff]
              exact decide_eq_false (not_le.mpr hth)
            simp [hen, hpa, hsome, hdec]
      · simp [hen, hprev]
  | some CDTimer.captureStep => exact absurd htim htimer

/-- C6: fed a sequence of timer firings that all sample the same video
content (hence byte-identical masked analysis frames), the loop never fires
`onChange` and never arms the capture closure: each tick either records a
baseline (no previous frame) or computes a diff of 0, which is below any
positive threshold, and stays in the polling phase. -/
theorem identical_frames_never_fire
    (threshold : ℚ) (pip : Option PipDetails) (sw sh : ℕ) (v : VideoFrame)
    (videos : List VideoFrame) (s : CDState)
    (hth : 0 < threshold)
    (hvid : ∀ x ∈ videos, x = v)
    (htimer : s.changeDetectionTimer ≠ some CDTimer.captureStep)
    (hprev : s.previousImageData = none ∨
      s.previousImageData = some (analysisFrame pip sw sh v)) :
    (cdRun threshold pip sw sh videos s).2 = [] ∧
    (cdRun threshold pip sw sh videos s).1.changeDetectionTimer ≠ some CDTimer.captureStep := by
  induction videos generalizing s with
  | nil => exact ⟨rfl, htimer⟩
  | cons v0 vs ih =>
      have hv0 : v0 = v := hvid v0 (List.mem_cons_self _ _)
      have hvs : ∀ x ∈ vs, x = v := fun x hx => hvid x (List.mem_cons_of_mem _ hx)
      rw [hv0]
      obtain ⟨hev, htim', hprev'⟩ :=
        cdTimerFire_identical_step threshold pip sw sh v s hth htimer hprev
      obtain ⟨hev2, htim2⟩ := ih _ hvs htim' hprev'
      simp only [cdRun]
      exact ⟨by rw [hev, hev2]; rfl, htim2⟩

/-- Updating the last element of `l ++ [a]` rewrites exactly `a`. -/
theorem modifyLast_concat {α : Type} (f : α → α) (l : List α) (a : α) :
    modifyLast f (l ++ [a]) = l ++ [f a] := by
  simp [modifyLast, List.getLast?_concat, List.dropLast_concat]

/-- `modifyLast` preserves emptiness. -/
theorem modifyLast_eq_nil_iff {α : Type} (f : α → α) (l : List α) :
    modifyLast f l = [] ↔ l = [] := by
  rcases List.eq_nil_or_concat l with h | ⟨l', a, h⟩
  · subst h; simp [modifyLast]
  · subst h; simp [List.concat_eq_append, modifyLast_concat]

/-- `modifyLast` leaves everything but the last element untouched. -/
theorem dropLast_modifyLast {α : Type} (f : α → α) (l : List α) :
    (modifyLast f l).dropLast = l.dropLast := by
  rcases List.eq_nil_or_concat l with h | ⟨l', a, h⟩
  · subst h; simp [modifyLast]
  · subst h; simp [List.concat_eq_append, modifyLast_concat, List.dropLast_concat]

/-- Two successive in-place updates of the last element compose. -/
theorem modifyLast_modifyLast {α : Type} (f g : α → α) (l : List α) :
    modifyLast f (modifyLast g l) = modifyLast (fun x => f (g x)) l := by
  rcases List.eq_nil_or_concat l with h | ⟨l', a, h⟩
  · subst h; rfl
  · subst h; simp [List.concat_eq_append, modifyLast_concat]

/-- Pointwise-identity updates leave the list unchanged. -/
theorem modifyLast_id {α : Type} (f : α → α) (l : List α) (hf : ∀ x, f x = x) :
    modifyLast f l = l := by
  rcases List.eq_nil_or_concat l with h | ⟨l', a, h⟩
  · subst h; rfl
  · subst h; simp [List.concat_eq_append, modifyLast_concat, hf]

/-- Retracting the follow-up just appended restores the original state. -/
theorem removeLast_addFollowUp (fu : FollowUpItem) (s : TaskState) :
    removeLastFollowUpFromCurrentTask (addFollowUpToCurrentTask fu s) = s := by
  cases s with
  | mk goal tasks cnt gen l lf lp tr ls pf cds =>
      simp only [removeLastFollowUpFromCurrentTask, addFollowUpToCurrentTask,
        modifyLast_modifyLast]
      congr 1
      apply modifyLast_id
      intro t
      cases t with
      | mk text prev fus => simp [List.dropLast_concat]

/-- Pointwise-equal updates agree on `modifyLast`. -/
theorem modifyLast_congr {α : Type} (f g : α → α) (l : List α) (h : ∀ x, f x = g x) :
    modifyLast f l = modifyLast g l := by
  rcases List.eq_nil_or_concat l with hl | ⟨l', a, hl⟩
  · subst hl; rfl
  · subst hl; simp [List.concat_eq_append, modifyLast_concat, h]

/-- Retracting after an in-place answer update is the same as retracting
directly. -/
theorem removeLast_updateFollowUp (answer : String) (s : TaskState) :
    removeLastFollowUpFromCurrentTask (updateCurrentFollowUpAnswer answer s) =
      removeLastFollowUpFromCurrentTask s := by
  cases s with
  | mk goal tasks cnt gen l lf lp tr ls pf cds =>
      simp only [removeLastFollowUpFromCurrentTask, updateCurrentFollowUpAnswer,
        modifyLast_modifyLast]
      congr 1
      apply modifyLast_congr
      intro t
      cases t with
      | mk text prev fus =>
          rcases List.eq_nil_or_concat fus with hf | ⟨fus', fu, hf⟩
          · subst hf; rfl
          · subst hf
            simp [List.concat_eq_append, modifyLast_concat, List.dropLast_concat]

/-- One streamed payload never changes what "retract any partially-appended
follow-up" yields: the streaming callback only ever appends one retractable
follow-up or edits it in place. -/
theorem handleStreamChunk_restore (q c : String) (acc : TaskState × Bool × Bool) :
    (if (handleStreamChunk q c acc).2.1 then
        removeLastFollowUpFromCurrentTask (handleStreamChunk q c acc).1
      else (handleStreamChunk q c acc).1) =
    (if acc.2.1 then removeLastFollowUpFromCurrentTask acc.1 else acc.1) := by
  obtain ⟨s, hadd, hreg⟩ := acc
  unfold handleStreamChunk
  by_cases h1 : hreg
  · simp [h1]
  · simp only [h1]
    by_cases h2 : jsStartsWith "Regenerate" c
    · simp [h2]
    · simp only [h2]
      by_cases h3 : jsTrim c = "Regenerate"
      · by_cases h4 : hadd <;> simp [h3, h4]
      · by_cases h4 : hadd
        · simp [h3, h4, removeLast_updateFollowUp]
        · simp [h3, h4, removeLast_addFollowUp]

/-- Folding any stream of payloads preserves the retract-restores-state
relation. -/
theorem streamFold_restore (q : String) (chunks : List String) :
    ∀ acc : TaskState × Bool × Bool,
      (if (chunks.foldl (fun a c => handleStreamChunk q c a) acc).2.1 then
          removeLastFollowUpFromCurrentTask
            (chunks.foldl (fun a c => handleStreamChunk q c a) acc).1
        else (chunks.foldl (fun a c => handleStreamChunk q c a) acc).1) =
      (if acc.2.1 then removeLastFollowUpFromCurrentTask acc.1 else acc.1) := by
  induction chunks with
  | nil => intro acc; rfl
  | cons c cs ih =>
      intro acc
      rw [List.foldl_cons, ih (handleStreamChunk q c acc), handleStreamChunk_restore]

/-- C5: a streamed partial payload that is a prefix of the sentinel
`"Regenerate"` (including `"Reg"`, `"Regen"` and the full word itself) is
suppressed outright — it never creates or edits a follow-up; and whenever
the final streamed text trims to exactly `"Regenerate"`, `sendFollowUpMessage`
takes the retry path: any partially-appended follow-up is retracted, the
question is stashed as the pending follow-up, the follow-up busy flag is
cleared, and a fresh action-generation cycle is run instead of answering in
place. -/
theorem followup_regenerate_sentinel :
    (∀ (q c : String) (acc : TaskState × Bool × Bool),
      jsStartsWith "Regenerate" c = true → handleStreamChunk q c acc = acc) ∧
    (∀ (ext : FollowExt) (s : TaskState) (q : String) (cap : String × String) (final : String),
      q ≠ "" →
      ext.capture = Except.ok cap →
      ext.finalText = Except.ok final →
      jsTrim final = "Regenerate" →
      sendFollowUpMessage ext (some q) s =
        ((triggerGenerateTaskDescription ext.trig
            { s with pendingFollowUp := q, isLoadingFollowUp := false }).1,
         [OrchEvent.followupQuestionAsked, OrchEvent.captureFrame, OrchEvent.helpCall] ++
          (triggerGenerateTaskDescription ext.trig
            { s with pendingFollowUp := q, isLoadingFollowUp := false }).2)) := by
  constructor
  · intro q c acc hpre
    obtain ⟨s, hadd, hreg⟩ := acc
    unfold handleStreamChunk
    by_cases h1 : hreg <;> simp [h1, hpre]
  · intro ext s q cap final hq hcap hfin htrim
    have hq' : (q = "") = False := eq_false hq
    simp only [sendFollowUpMessage, hcap, hfin, htrim, hq', if_false,
      eq_self_iff_true, if_true]
    have hres := streamFold_restore q ext.chunks
      ({ s with isLoadingFollowUp := true }, false, false)
    simp only [Bool.false_eq_true, if_false] at hres
    rw [hres]

/-- Witness for `followup_regenerate_sentinel`: the stream "Reg", "Regen",
"Regenerate" followed by a final "Regenerate" creates no follow-up and takes
the retry path from the concrete merge-path state. -/
theorem followup_regenerate_sentinel_witness :
    jsStartsWith "Regenerate" "Reg" = true ∧
    handleStreamChunk "what now" "Reg" (mergePathState, false, false) =
      (mergePathState, false, false) ∧
    sendFollowUpMessage
      { capture := Except.ok ("cap-s", "cap-n"),
        chunks := ["Reg", "Regen", "Regenerate"],
        finalText := Except.ok "Regenerate",
        trig := genActionFailsExt }
      (some "what now") mergePathState =
      ((triggerGenerateTaskDescription genActionFailsExt
          { mergePathState with pendingFollowUp := "what now", isLoadingFollowUp := false }).1,
       [OrchEvent.followupQuestionAsked, OrchEvent.captureFrame, OrchEvent.helpCall] ++
        (triggerGenerateTaskDescription genActionFailsExt
          { mergePathState with pendingFollowUp := "what now", isLoadingFollowUp := false }).2) := by
  refine ⟨by decide, ?_, ?_⟩
  · exact followup_regenerate_sentinel.1 "what now" "Reg" (mergePathState, false, false) (by decide)
  · exact followup_regenerate_sentinel.2 _ mergePathState "what now" ("cap-s", "cap-n")
      "Regenerate" (by decide) rfl rfl (by decide)

/-- C10: `sendFollowUpMessage` with a missing or empty question is a
complete no-op — the state (including every busy flag and the history) is
untouched and no external call or analytics event happens. -/
theorem sendFollowUpMessage_empty_noop (ext : FollowExt) (s : TaskState) :
    sendFollowUpMessage ext none s = (s, []) ∧
    sendFollowUpMessage ext (some "") s = (s, []) := by
  exact ⟨rfl, by simp [sendFollowUpMessage]⟩

/-- C3 (counterexample): with a pending follow-up merged before
`generateAction` is awaited, a rejection of `generateAction` leaves the
history truncated by one step — not equal to the history observed before
the cycle started. -/
theorem genAction_failure_truncates_history_cex :
    (triggerGenerateTaskDescription genActionFailsExt mergePathState).1.tasks = [] ∧
    mergePathState.tasks ≠ [] := by decide

/-- C3 (amended): a `generateAction` rejection is caught at the orchestrator
boundary and the busy flags (`isTriggering`, `isLoading`,
`isLoadingPreviewImage`) are reset; the step history is left unmodified by
the failed cycle on every path *except* the one where a pending follow-up
was merged as revision context before the await — there the pre-await
retraction of the superseded last step persists, so the observed history is
the pre-cycle history minus its last step. -/
theorem genAction_failure_spec (ext : TrigExt) (s : TaskState)
    (hga : ext.genAction = Except.error ())
    (htrig : s.isTriggering = false)
    (hgen : s.totalTaskGeneration < MAX_STEPS) :
    (triggerGenerateTaskDescription ext s).1.isTriggering = false ∧
    (triggerGenerateTaskDescription ext s).1.isLoading = false ∧
    (triggerGenerateTaskDescription ext s).1.isLoadingPreviewImage = false ∧
    (ext.capture = Except.error () → (triggerGenerateTaskDescription ext s).1.tasks = s.tasks) ∧
    (ext.capture ≠ Except.error () →
      ((s.pendingFollowUp ≠ "" ∧ s.lastScreenshot ≠ "" ∧ s.tasks ≠ []) →
        (triggerGenerateTaskDescription ext s).1.tasks = s.tasks.dropLast) ∧
      (¬(s.pendingFollowUp ≠ "" ∧ s.lastScreenshot ≠ "" ∧ s.tasks ≠ []) →
        (triggerGenerateTaskDescription ext s).1.tasks = s.tasks)) := by
  have hguard : ¬(MAX_STEPS ≤ s.totalTaskGeneration ∨ s.isTriggering = true) := by
    rw [htrig]
    simp
    omega
  cases hcap : ext.capture with
  | error e =>
      cases e
      simp only [triggerGenerateTaskDescription, hcap, if_neg hguard]
      refine ⟨rfl, rfl, rfl, fun _ => rfl, fun hne => absurd rfl hne⟩
  | ok cap =>
      obtain ⟨capS, capN⟩ := cap
      by_cases hmerge : s.pendingFollowUp ≠ "" ∧ s.lastScreenshot ≠ "" ∧ s.tasks ≠ []
      · simp only [triggerGenerateTaskDescription, hcap, if_neg hguard, hga, if_pos hmerge]
        refine ⟨rfl, rfl, rfl, ?_, ?_⟩
        · intro h; exact Except.noConfusion h
        · intro _; exact ⟨fun _ => rfl, fun h => absurd hmerge h⟩
      · simp only [triggerGenerateTaskDescription, hcap, if_neg hguard, hga, if_neg hmerge]
        refine ⟨rfl, rfl, rfl, ?_, ?_⟩
        · intro h; exact Except.noConfusion h
        · intro _; exact ⟨fun h => absurd h hmerge, fun _ => rfl⟩

/-- Witness for `genAction_failure_spec` on the concrete merge-path state:
the busy flags are reset and the history loses its single step. -/
theorem genAction_failure_spec_witness :
    (triggerGenerateTaskDescription genActionFailsExt mergePathState).1.isTriggering = false ∧
    (triggerGenerateTaskDescription genActionFailsExt mergePathState).1.isLoading = false ∧
    (triggerGenerateTaskDescription genActionFailsExt mergePathState).1.isLoadingPreviewImage = false ∧
    (triggerGenerateTaskDescription genActionFailsExt mergePathState).1.tasks =
      mergePathState.tasks.dropLast := by
  have h := genAction_failure_spec genActionFailsExt mergePathState rfl rfl (by decide)
  exact ⟨h.1, h.2.1, h.2.2.1, (h.2.2.2.2 (fun hh => Except.noConfusion hh)).1 (by decide)⟩

/-- C9: when `generateAction` resolves to a string that trims to empty, the
cycle appends no step to the history (the empty item is filtered out), yet
the monotonic generation counter and the public step counter are both still
incremented — so the public step counter can exceed the history length. -/
theorem empty_action_increments_counters (ext : TrigExt) (s : TaskState)
    (cap : String × String) (action : String)
    (hcap : ext.capture = Except.ok cap)
    (hga : ext.genAction = Except.ok action)
    (hemp : jsTrim action = "")
    (htrig : s.isTriggering = false)
    (hgen : s.totalTaskGeneration < MAX_STEPS)
    (hpend : s.pendingFollowUp = "")
    (htasks : ∀ t ∈ s.tasks, t.text ≠ "") :
    (triggerGenerateTaskDescription ext s).1.tasks = s.tasks ∧
    (triggerGenerateTaskDescription ext s).1.totalTaskGeneration = s.totalTaskGeneration + 1 ∧
    (triggerGenerateTaskDescription ext s).1.totalTaskCount = s.totalTaskCount + 1 ∧
    (s.tasks.length ≤ s.totalTaskCount →
      (triggerGenerateTaskDescription ext s).1.tasks.length <
        (triggerGenerateTaskDescription ext s).1.totalTaskCount) := by
  have hguard : ¬(MAX_STEPS ≤ s.totalTaskGeneration ∨ s.isTriggering = true) := by
    rw [htrig]
    simp
    omega
  have hmerge : ¬(s.pendingFollowUp ≠ "" ∧ s.lastScreenshot ≠ "" ∧ s.tasks ≠ []) := by
    rw [hpend]
    simp
  have hfil : (s.tasks ++ [({ text := "" } : TaskHistoryItem)]).filter
      (fun item => item.text != "") = s.tasks := by
    rw [List.filter_append]
    have h1 : s.tasks.filter (fun item => item.text != "") = s.tasks :=
      List.filter_eq_self.mpr (fun t ht => by simpa using htasks t ht)
    have h2 : ([({ text := "" } : TaskHistoryItem)]).filter
        (fun item => item.text != "") = [] := rfl
    rw [h1, h2, List.append_nil]
  obtain ⟨capS, capN⟩ := cap
  simp only [triggerGenerateTaskDescription, successPhase, hcap, if_neg hguard, if_neg hmerge,
    hga, hemp, previewPhase, bne_self_eq_false, Bool.and_false, Bool.false_and,
    Bool.false_eq_true, if_false, hfil, finallyFlags]
  refine ⟨trivial, trivial, trivial, fun hle => ?_⟩
  omega

/-- Max-steps event counting distributes over trace concatenation. -/
theorem countMaxStepsEvents_append (l1 l2 : List OrchEvent) :
    countMaxStepsEvents (l1 ++ l2) = countMaxStepsEvents l1 + countMaxStepsEvents l2 :=
  List.countP_append _ l1 l2

/-- The preview phase never touches the generation counter and never emits a
max-steps event. -/
theorem previewPhase_gen_events (ext : TrigExt) (text : String) (isLink isStd : Bool)
    (s : TaskState) :
    (previewPhase ext text isLink isStd s).1.totalTaskGeneration = s.totalTaskGeneration ∧
    countMaxStepsEvents (previewPhase ext text isLink isStd s).2.1 = 0 := by
  unfold previewPhase
  by_cases hc : (!isLink && !isStd && text != "") = true
  · rw [if_pos hc]
    cases hgc : ext.genCoordinate with
    | error e => simp [hgc, countMaxStepsEvents]
    | ok coordinates =>
        by_cases hp : (coordinates != "" && isCoordinatePair (jsTrim coordinates)) = true
        · cases hsn : ext.snapshot with
          | error e => simp [hgc, hp, hsn, countMaxStepsEvents]
          | ok o => cases o <;> simp [hgc, hp, hsn, countMaxStepsEvents]
        · simp [hgc, hp, countMaxStepsEvents]
  · rw [if_neg hc]
    simp [countMaxStepsEvents]

/-- The success continuation bumps the generation counter by exactly one and
emits the max-steps event exactly when the new value is `MAX_STEPS`. -/
theorem successPhase_spec (ext : TrigExt) (imageDataUrl action : String) (s2 : TaskState) :
    (successPhase ext imageDataUrl action s2).1.totalTaskGeneration =
      s2.totalTaskGeneration + 1 ∧
    countMaxStepsEvents (successPhase ext imageDataUrl action s2).2 =
      if s2.totalTaskGeneration + 1 = MAX_STEPS then 1 else 0 := by
  simp only [successPhase]
  constructor
  · split
    · exact (previewPhase_gen_events _ _ _ _ _).1
    · split
      · exact (previewPhase_gen_events _ _ _ _ _).1
      · exact (previewPhase_gen_events _ _ _ _ _).1
  · split
    · rw [countMaxStepsEvents_append, (previewPhase_gen_events _ _ _ _ _).2]
      split <;> rename_i h <;>
        simp_all [countMaxStepsEvents, List.countP_cons, List.countP_nil]
    · rw [countMaxStepsEvents_append, countMaxStepsEvents_append,
        (previewPhase_gen_events _ _ _ _ _).2]
      have hcd : ∀ (c : Bool) (x y : TaskState),
          countMaxStepsEvents (if c then
            (x, [OrchEvent.startChangeDetectionCall])
          else (y, ([] : List OrchEvent))).2 = 0 := by
        intro c x y
        cases c <;> rfl
      rw [hcd]
      split <;> rename_i h <;>
        simp_all [countMaxStepsEvents, List.countP_cons, List.countP_nil]

/-- One `triggerGenerateTaskDescription` call either leaves the generation
counter alone with no max-steps event, or (only from below the ceiling)
bumps it by exactly one and emits the max-steps event exactly when the new
value is `MAX_STEPS`. -/
theorem triggerGen_gen_spec (ext : TrigExt) (s : TaskState) :
    ((triggerGenerateTaskDescription ext s).1.totalTaskGeneration = s.totalTaskGeneration ∧
      countMaxStepsEvents (triggerGenerateTaskDescription ext s).2 = 0) ∨
    (s.totalTaskGeneration < MAX_STEPS ∧
      (triggerGenerateTaskDescription ext s).1.totalTaskGeneration =
        s.totalTaskGeneration + 1 ∧
      countMaxStepsEvents (triggerGenerateTaskDescription ext s).2 =
        if s.totalTaskGeneration + 1 = MAX_STEPS then 1 else 0) := by
  by_cases hg : MAX_STEPS ≤ s.totalTaskGeneration ∨ s.isTriggering = true
  · left
    simp [triggerGenerateTaskDescription, hg, countMaxStepsEvents]
  · have hlt : s.totalTaskGeneration < MAX_STEPS :=
      not_le.mp (not_or.mp hg).1
    cases hcap : ext.capture with
    | error e =>
        left
        simp [triggerGenerateTaskDescription, hg, hcap, countMaxStepsEvents, finallyFlags]
    | ok cap =>
        obtain ⟨capS, capN⟩ := cap
        by_cases hmerge : s.pendingFollowUp ≠ "" ∧ s.lastScreenshot ≠ "" ∧ s.tasks ≠ []
        · cases hga : ext.genAction with
          | error e =>
              left
              simp [triggerGenerateTaskDescription, hg, hcap, hga, hmerge,
                countMaxStepsEvents, finallyFlags]
          | ok action =>
              right
              refine ⟨hlt, ?_, ?_⟩
              · simp only [triggerGenerateTaskDescription, if_neg hg, hcap, if_pos hmerge, hga]
                exact (successPhase_spec _ _ _ _).1
              · simp only [triggerGenerateTaskDescription, if_neg hg, hcap, if_pos hmerge, hga]
                rw [countMaxStepsEvents_append, (successPhase_spec _ _ _ _).2]
                simp [countMaxStepsEvents]
        · cases hga : ext.genAction with
          | error e =>
              left
              simp [triggerGenerateTaskDescription, hg, hcap, hga, hmerge,
                countMaxStepsEvents, finallyFlags]
          | ok action =>
              right
              refine ⟨hlt, ?_, ?_⟩
              · simp only [triggerGenerateTaskDescription, if_neg hg, hcap, if_neg hmerge, hga]
                exact (successPhase_spec _ _ _ _).1
              · simp only [triggerGenerateTaskDescription, if_neg hg, hcap, if_neg hmerge, hga]
                rw [countMaxStepsEvents_append, (successPhase_spec _ _ _ _).2]
                simp [countMaxStepsEvents]

/-- The three public entry points share the generation-counter behaviour of
`triggerGenerateTaskDescription`. -/
theorem applyOrchOp_gen_spec (op : OrchOp) (s : TaskState) :
    ((applyOrchOp op s).1.totalTaskGeneration = s.totalTaskGeneration ∧
      countMaxStepsEvents (applyOrchOp op s).2 = 0) ∨
    (s.totalTaskGeneration < MAX_STEPS ∧
      (applyOrchOp op s).1.totalTaskGeneration = s.totalTaskGeneration + 1 ∧
      countMaxStepsEvents (applyOrchOp op s).2 =
        if s.totalTaskGeneration + 1 = MAX_STEPS then 1 else 0) := by
  cases op with
  | next ext =>
      by_cases hceil : MAX_STEPS ≤ s.totalTaskGeneration
      · left
        simp [applyOrchOp, onNextTask, hceil, countMaxStepsEvents]
      · simp only [applyOrchOp, onNextTask, if_neg hceil]
        exact triggerGen_gen_spec ext s
  | firstTask ext =>
      by_cases hceil : MAX_STEPS ≤ s.totalTaskGeneration
      · left
        simp [applyOrchOp, triggerFirstTask, hceil, countMaxStepsEvents]
      · simp only [applyOrchOp, triggerFirstTask, if_neg hceil]
        exact triggerGen_gen_spec ext s
  | refreshTask ext =>
      by_cases hceil : MAX_STEPS ≤ s.totalTaskGeneration
      · left
        simp [applyOrchOp, onRefreshTask, hceil, countMaxStepsEvents]
      · simp only [applyOrchOp, onRefreshTask, if_neg hceil]
        have hs1 : (if s.tasks ≠ [] then
            { s with tasks := s.tasks.dropLast, totalTaskCount := s.totalTaskCount - 1 }
          else s).totalTaskGeneration = s.totalTaskGeneration := by
          split <;> rfl
        rcases triggerGen_gen_spec ext (if s.tasks ≠ [] then
            { s with tasks := s.tasks.dropLast, totalTaskCount := s.totalTaskCount - 1 }
          else s) with ⟨h1, h2⟩ | ⟨h0, h1, h2⟩
        · left
          exact ⟨by rw [h1, hs1], h2⟩
        · right
          rw [hs1] at h0 h1 h2
          exact ⟨h0, h1, h2⟩

/-- Once the ceiling is reached, every orchestrator operation is inert. -/
theorem applyOrchOp_frozen (op : OrchOp) (s : TaskState)
    (h : MAX_STEPS ≤ s.totalTaskGeneration) : applyOrchOp op s = (s, []) := by
  cases op <;>
    simp [applyOrchOp, onNextTask, onRefreshTask, triggerFirstTask, h]

/-- Once the ceiling is reached, whole operation sequences are inert. -/
theorem runOrchOps_frozen (ops : List OrchOp) :
    ∀ s : TaskState, MAX_STEPS ≤ s.totalTaskGeneration → runOrchOps ops s = (s, []) := by
  induction ops with
  | nil => intro s _; rfl
  | cons op ops ih =>
      intro s h
      simp [runOrchOps, applyOrchOp_frozen op s h, ih s h]

/-- Along any sequence of `onNextTask` / `onRefreshTask` / `triggerFirstTask`
calls from a state below or at the ceiling, the generation counter never
exceeds `MAX_STEPS` and the max-steps analytics event fires exactly once,
namely on the transition where the counter reaches `MAX_STEPS`. -/
theorem runOrchOps_maxCount (ops : List OrchOp) :
    ∀ s : TaskState, s.totalTaskGeneration ≤ MAX_STEPS →
      (runOrchOps ops s).1.totalTaskGeneration ≤ MAX_STEPS ∧
      countMaxStepsEvents (runOrchOps ops s).2 =
        if (runOrchOps ops s).1.totalTaskGeneration = MAX_STEPS ∧
            s.totalTaskGeneration < MAX_STEPS then 1 else 0 := by
  induction ops with
  | nil =>
      intro s hs
      refine ⟨hs, ?_⟩
      simp only [runOrchOps, countMaxStepsEvents, List.countP_nil]
      split
      · rename_i h
        omega
      · rfl
  | cons op ops ih =>
      intro s hs
      simp only [runOrchOps]
      rcases applyOrchOp_gen_spec op s with ⟨h1, h2⟩ | ⟨hlt, h1, h2⟩
      · obtain ⟨hle', hcnt⟩ := ih (applyOrchOp op s).1 (by rw [h1]; exact hs)
        refine ⟨hle', ?_⟩
        rw [countMaxStepsEvents_append, h2, Nat.zero_add, hcnt, h1]
      · by_cases hmax : s.totalTaskGeneration + 1 = MAX_STEPS
        · have hfroz := runOrchOps_frozen ops (applyOrchOp op s).1 (by rw [h1, hmax])
          simp only [hfroz]
          refine ⟨by rw [h1, hmax], ?_⟩
          rw [countMaxStepsEvents_append, h2, if_pos hmax]
          rw [if_pos ⟨by rw [h1, hmax], hlt⟩]
          rfl
        · obtain ⟨hle', hcnt⟩ := ih (applyOrchOp op s).1 (by rw [h1]; omega)
          refine ⟨hle', ?_⟩
          rw [countMaxStepsEvents_append, h2, if_neg hmax, Nat.zero_add, hcnt, h1]
          have hiff : ((runOrchOps ops (applyOrchOp op s).1).1.totalTaskGeneration = MAX_STEPS ∧
              s.totalTaskGeneration + 1 < MAX_STEPS) ↔
              ((runOrchOps ops (applyOrchOp op s).1).1.totalTaskGeneration = MAX_STEPS ∧
              s.totalTaskGeneration < MAX_STEPS) := by
            constructor <;> (rintro ⟨ha, hb⟩; exact ⟨ha, by omega⟩)
          rw [if_congr hiff rfl rfl]

/-- C4: once the generation counter has reached the 150-step ceiling, every
call to `onNextTask`, `onRefreshTask` and `triggerFirstTask` is a complete
no-op (state unchanged — so no frame captured, no external call, no step
appended, no counter incremented — and no event emitted); and along any
call sequence from a state at or below the ceiling, the max-steps analytics
event fires exactly once, at the transition where the counter reaches 150. -/
theorem step_ceiling_spec :
    (∀ (ext : TrigExt) (s : TaskState), MAX_STEPS ≤ s.totalTaskGeneration →
      onNextTask ext s = (s, []) ∧ onRefreshTask ext s = (s, []) ∧
        triggerFirstTask ext s = (s, [])) ∧
    (∀ (ops : List OrchOp) (s : TaskState), s.totalTaskGeneration ≤ MAX_STEPS →
      countMaxStepsEvents (runOrchOps ops s).2 =
        if (runOrchOps ops s).1.totalTaskGeneration = MAX_STEPS ∧
            s.totalTaskGeneration < MAX_STEPS then 1 else 0) := by
  constructor
  · intro ext s h
    exact ⟨by simp [onNextTask, h], by simp [onRefreshTask, h], by simp [triggerFirstTask, h]⟩
  · intro ops s hs
    exact (runOrchOps_maxCount ops s hs).2

/-- Witness for `step_ceiling_spec`: a concrete state at the ceiling is left
untouched by all three entry points, and a concrete run below the ceiling
obeys the exactly-once event count. -/
theorem step_ceiling_spec_witness :
    onNextTask genActionFailsExt { mergePathState with totalTaskGeneration := MAX_STEPS } =
      ({ mergePathState with totalTaskGeneration := MAX_STEPS }, []) ∧
    onRefreshTask genActionFailsExt { mergePathState with totalTaskGeneration := MAX_STEPS } =
      ({ mergePathState with totalTaskGeneration := MAX_STEPS }, []) ∧
    triggerFirstTask genActionFailsExt { mergePathState with totalTaskGeneration := MAX_STEPS } =
      ({ mergePathState with totalTaskGeneration := MAX_STEPS }, []) ∧
    countMaxStepsEvents (runOrchOps [] mergePathState).2 =
      if (runOrchOps [] mergePathState).1.totalTaskGeneration = MAX_STEPS ∧
          mergePathState.totalTaskGeneration < MAX_STEPS then 1 else 0 := by
  have h1 := step_ceiling_spec.1 genActionFailsExt
    { mergePathState with totalTaskGeneration := MAX_STEPS } (by decide)
  have h2 := step_ceiling_spec.2 [] mergePathState (by decide)
  exact ⟨h1.1, h1.2.1, h1.2.2, h2⟩

/-- Witness for `identical_frames_never_fire`: three polling ticks on the
constant white video, straight after `startChangeDetection`, fire nothing
and stay in the polling phase. -/
theorem identical_frames_never_fire_witness :
    (0 : ℚ) < 1 ∧
    (cdRun 1 none 1920 1080 (List.replicate 3 whiteVideo10)
      (startChangeDetection cdInitState)).2 = [] ∧
    (cdRun 1 none 1920 1080 (List.replicate 3 whiteVideo10)
      (startChangeDetection cdInitState)).1.changeDetectionTimer ≠
      some CDTimer.captureStep := by
  have h := identical_frames_never_fire 1 none 1920 1080 whiteVideo10
    (List.replicate 3 whiteVideo10) (startChangeDetection cdInitState)
    (by decide)
    (fun x hx => List.eq_of_mem_replicate hx)
    (by decide)
    (Or.inl rfl)
  exact ⟨by decide, h.1, h.2⟩

/-- Witness for `empty_action_increments_counters`: a concrete cycle whose
`generateAction` resolves to the empty string leaves the single-step history
alone while bumping both counters past it. -/
theorem empty_action_increments_counters_witness :
    (triggerGenerateTaskDescription
        { capture := Except.ok ("cap-s", "cap-n"), genAction := Except.ok "",
          genCoordinate := Except.ok "None", snapshot := Except.ok none }
        { mergePathState with pendingFollowUp := "" }).1.tasks =
      ({ mergePathState with pendingFollowUp := "" } : TaskState).tasks ∧
    (triggerGenerateTaskDescription
        { capture := Except.ok ("cap-s", "cap-n"), genAction := Except.ok "",
          genCoordinate := Except.ok "None", snapshot := Except.ok none }
        { mergePathState with pendingFollowUp := "" }).1.totalTaskGeneration =
      ({ mergePathState with pendingFollowUp := "" } : TaskState).totalTaskGeneration + 1 ∧
    (triggerGenerateTaskDescription
        { capture := Except.ok ("cap-s", "cap-n"), genAction := Except.ok "",
          genCoordinate := Except.ok "None", snapshot := Except.ok none }
        { mergePathState with pendingFollowUp := "" }).1.totalTaskCount =
      ({ mergePathState with pendingFollowUp := "" } : TaskState).totalTaskCount + 1 ∧
    (triggerGenerateTaskDescription
        { capture := Except.ok ("cap-s", "cap-n"), genAction := Except.ok "",
          genCoordinate := Except.ok "None", snapshot := Except.ok none }
        { mergePathState with pendingFollowUp := "" }).1.tasks.length <
      (triggerGenerateTaskDescription
        { capture := Except.ok ("cap-s", "cap-n"), genAction := Except.ok "",
          genCoordinate := Except.ok "None", snapshot := Except.ok none }
        { mergePathState with pendingFollowUp := "" }).1.totalTaskCount := by
  have h := empty_action_increments_counters
    { capture := Except.ok ("cap-s", "cap-n"), genAction := Except.ok "",
      genCoordinate := Except.ok "None", snapshot := Except.ok none }
    { mergePathState with pendingFollowUp := "" }
    ("cap-s", "cap-n") "" rfl rfl rfl rfl (by decide) rfl (by decide)
  exact ⟨h.1, h.2.1, h.2.2.1, h.2.2.2 (by decide)⟩
